import Mathlib

/-!
Verification of the entrait generic-parameter and signature analysis engine.

This file gives a shallow embedding of the dependency-shape analyzer
(src/entrait_macros/src/analyze_generics.rs), the signature converter
(src/entrait_macros/src/signature/converter.rs) and the trait dependency
mode resolution, and proves properties of them.

Modelling conventions:
 - `syn` identifiers are strings; source spans are dropped except where a
   function's signature carries one (then `Span := Nat`).
 - `syn::Error` is modelled by its message string.
 - `syn::Type` is modelled by the `Ty` inductive below; the `other` variant
   stands for every syn type variant the analyzer treats via its fallback
   arm (tuples, slices, pointers, the unit type, ...).
 - Path segments keep their identifier and their lifetime arguments; type
   arguments of segments are elided (the analyzer only ever compares
   segment identifiers).
 - Rust `&mut self` state (the `GenericsAnalyzer`) becomes explicit state
   passing: each analyzer function takes the accumulated `TraitGenerics`
   and returns the updated accumulator paired with its result, so that
   mutation before an error return is observable.
-/

namespace Entrait

abbrev Ident := String
abbrev Span := Nat
abbrev SynError := String

/-- One path segment: identifier plus lifetime arguments (type arguments
elided, the analyzer only compares identifiers). -/
structure PathSegment where
  ident : Ident
  lifetimeArgs : List Ident := []
deriving Repr, BEq, DecidableEq

/-- Shallow embedding of `syn::Type`, restricted to the shapes the analyzer
distinguishes.  `other` covers every remaining syn type variant, which the
analyzer handles uniformly through its fallback arm. -/
inductive Ty where
  | implTrait (bounds : List Ident)
  | path (qself : Bool) (leadingColon : Bool) (segments : List PathSegment)
  | reference (mutability : Bool) (lifetime : Option Ident) (elem : Ty)
  | paren (elem : Ty)
  | other (tag : Nat)
deriving Repr, BEq, DecidableEq

/-- Shallow embedding of `syn::GenericParam`. -/
inductive GenericParam where
  | type (ident : Ident) (bounds : List Ident)
  | const (ident : Ident)
  | lifetime (name : Ident)
deriving Repr, BEq, DecidableEq

def GenericParam.isTypeParam : GenericParam → Bool
  | .type _ _ => true
  | _ => false

def GenericParam.isLifetimeParam : GenericParam → Bool
  | .lifetime _ => true
  | _ => false

/-- Shallow embedding of `syn::WherePredicate`; `other` covers lifetime and
equality predicates, which the analyzer handles uniformly. -/
inductive WherePredicate where
  | type (boundedTy : Ty) (bounds : List Ident)
  | other (tag : Nat)
deriving Repr, BEq, DecidableEq

/-- Shallow embedding of `syn::Generics` (the `lt`/`gt` tokens are not
modelled). -/
structure Generics where
  params : List GenericParam
  whereClause : Option (List WherePredicate)
deriving Repr, BEq, DecidableEq

/-- Shallow embedding of `syn::Pat`, restricted to what the converter
distinguishes. -/
inductive Pat where
  | ident (name : Ident)
  | other (tag : Nat)
deriving Repr, BEq, DecidableEq

/-- Shallow embedding of `syn::FnArg`.  A receiver is `self` with an
optional reference (with optional lifetime) and a mutability flag; attrs
are opaque tags. -/
inductive FnArg where
  | receiver (attrs : List Nat) (reference : Option (Option Ident)) (mutability : Bool)
  | typed (attrs : List Nat) (pat : Pat) (ty : Ty)
deriving Repr, BEq, DecidableEq

/-- Shallow embedding of `syn::Signature` (the parts the engine reads). -/
structure Sig where
  ident : Ident
  asyncness : Bool
  inputs : List FnArg
  output : Option Ty
  generics : Generics
deriving Repr, BEq, DecidableEq

/-- `FnDeps` from generics.rs: the dependency shape of one function.
`generic none bounds` is the inline-bounds form, `generic (some d) bounds`
the named-generic form. -/
inductive FnDeps where
  | noDeps
  | generic (generic_param : Option Ident) (trait_bounds : List Ident)
  | concrete (ty : Ty)
deriving Repr, BEq, DecidableEq

/-- The trait generics accumulator (`TraitGenerics` in generics.rs). -/
structure TraitGenerics where
  params : List GenericParam
  where_predicates : List WherePredicate
deriving Repr, BEq, DecidableEq

/-- Modelled from the spec: idents.rs is not under src/.  `CrateIdents`
holds the stable re-exported support-library path segments. -/
structure CrateIdents where
  entrait : Ident
  core : Ident
deriving Repr, BEq, DecidableEq

/-- Modelled from the spec: idents.rs is not under src/.  `GenericIdents`
is the fresh identifier context created per trait
(`GenericIdents::new(crate_idents, span)`). -/
structure GenericIdents where
  crate_idents : CrateIdents
  span : Span
deriving Repr, BEq, DecidableEq

def GenericIdents.new (crate_idents : CrateIdents) (span : Span) : GenericIdents :=
  { crate_idents, span }

/-- `AsyncStrategy` from opt.rs (not under src/), modelled from the spec:
async_strategy is one of plain async, attribute-based async, or
associated-future. -/
inductive AsyncStrategy where
  | noHack
  | asyncTrait
  | associatedFuture
deriving Repr, BEq, DecidableEq

/-- `Opts` from opt.rs (not under src/), modelled from the spec and from the
call sites in src: `no_deps_value()` reads the `no_deps` flag with default
false; `async_strategy()` yields the chosen strategy. -/
structure Opts where
  no_deps : Option Bool
  async_strategy : AsyncStrategy
deriving Repr, BEq, DecidableEq

def Opts.no_deps_value (o : Opts) : Bool := o.no_deps.getD false

/-- `InputFn::use_associated_future` from entrait.rs: true exactly when the
strategy is associated-future and the function is async. -/
def use_associated_future (sig : Sig) (opts : Opts) : Bool :=
  match opts.async_strategy, sig.asyncness with
  | AsyncStrategy.associatedFuture, true => true
  | _, _ => false

/-! ## Dependency-shape analyzer (analyze_generics.rs) -/

def msgMissingDependencyReceiver : SynError :=
  "Function must have a dependency receiver as its first parameter. Pass no_deps to entrait to disable dependency injection."

def msgSelfReceiver : SynError :=
  "Function cannot have a self receiver"

def msgNoSelfAllowed : SynError :=
  "No self allowed"

def msgNoLeadingColon : SynError :=
  "No leading colon allowed"

def msgConcreteDepsInModule : SynError :=
  "Using concrete dependencies in a module is an anti-pattern. Instead, write a trait manually, use the #[entrait] attribute on it, and implement it for your application type"

/-- `extract_trait_bounds`: clones the punctuated bound list into a Vec. -/
def extract_trait_bounds (bounds : List Ident) : List Ident := bounds

/-- The loop inside `deps_with_generics` that pushes the function's type and
const generic parameters (skipping lifetimes) onto the accumulator. -/
def push_generic_params (acc : TraitGenerics) : List GenericParam → TraitGenerics
  | [] => acc
  | param :: rest =>
    match param with
    | GenericParam.type _ _ =>
      push_generic_params { acc with params := acc.params ++ [param] } rest
    | GenericParam.const _ =>
      push_generic_params { acc with params := acc.params ++ [param] } rest
    | GenericParam.lifetime _ => push_generic_params acc rest

/-- `GenericsAnalyzer::deps_with_generics`: moves all of the function's
type/const generic parameters and its whole where-clause into the
accumulator, returning the given deps unchanged. -/
def deps_with_generics (acc : TraitGenerics) (deps : FnDeps) (generics : Generics) :
    TraitGenerics × Except SynError FnDeps :=
  let acc := push_generic_params acc generics.params
  let acc :=
    match generics.whereClause with
    | some predicates => { acc with where_predicates := acc.where_predicates ++ predicates }
    | none => acc
  (acc, Except.ok deps)

/-- The `enumerate().find_map(..)` inside `find_deps_generic_bounds`: index
and direct bounds of the first type parameter with the given identifier. -/
def findTypeParamIdx : List GenericParam → Ident → Option (Nat × List Ident)
  | [], _ => none
  | param :: rest, ident =>
    match param with
    | GenericParam.type name bounds =>
      if name == ident then some (0, bounds)
      else (findTypeParamIdx rest ident).map (fun p => (p.1 + 1, p.2))
    | _ => (findTypeParamIdx rest ident).map (fun p => (p.1 + 1, p.2))

/-- The indexed loop inside `find_deps_generic_bounds` that pushes every
generic parameter whose index differs from the matched one. -/
def pushParamsExceptFrom (i : Nat) (skip : Nat) : List GenericParam → List GenericParam
  | [] => []
  | param :: rest =>
    if i != skip then param :: pushParamsExceptFrom (i + 1) skip rest
    else pushParamsExceptFrom (i + 1) skip rest

def pushParamsExcept (params : List GenericParam) (skip : Nat) : List GenericParam :=
  pushParamsExceptFrom 0 skip params

/-- The where-clause loop of `find_deps_generic_bounds`: predicates bounding
the matched identifier have their bounds merged into the dependency bound
set; qualified-self, leading-colon, multi-segment and non-path bounded
types are pushed to the accumulator; a single-segment path bounding a
different identifier is neither merged nor pushed (the source has no else
arm there). -/
def find_deps_where_loop (generic_param_ident : Ident) :
    TraitGenerics × List Ident → List WherePredicate → TraitGenerics × List Ident
  | st, [] => st
  | (acc, bounds), predicate :: rest =>
    let st :=
      match predicate with
      | WherePredicate.type bty pbounds =>
        match bty with
        | Ty.path q l segs =>
          if q || l then
            ({ acc with where_predicates := acc.where_predicates ++ [predicate] }, bounds)
          else
            match segs with
            | [seg] =>
              if seg.ident == generic_param_ident then
                (acc, bounds ++ extract_trait_bounds pbounds)
              else (acc, bounds)
            | _ =>
              ({ acc with where_predicates := acc.where_predicates ++ [predicate] }, bounds)
        | _ => ({ acc with where_predicates := acc.where_predicates ++ [predicate] }, bounds)
      | _ => ({ acc with where_predicates := acc.where_predicates ++ [predicate] }, bounds)
    find_deps_where_loop generic_param_ident st rest

/-- `GenericsAnalyzer::find_deps_generic_bounds`: looks the identifier up
among the function's type parameters; on a match, pushes every other
generic parameter to the accumulator, merges direct bounds with matching
where-clause bounds, and yields the named-generic deps. -/
def find_deps_generic_bounds (acc : TraitGenerics) (generics : Generics)
    (generic_param_ident : Ident) : TraitGenerics × Option FnDeps :=
  match findTypeParamIdx generics.params generic_param_ident with
  | none => (acc, none)
  | some (matching_index, matching_bounds) =>
    let acc := { acc with params := acc.params ++ pushParamsExcept generics.params matching_index }
    let deps_trait_bounds := extract_trait_bounds matching_bounds
    let (acc, deps_trait_bounds) :=
      match generics.whereClause with
      | some predicates =>
        find_deps_where_loop generic_param_ident (acc, deps_trait_bounds) predicates
      | none => (acc, deps_trait_bounds)
    (acc, some (FnDeps.generic (some generic_param_ident) deps_trait_bounds))

/-- `GenericsAnalyzer::extract_deps_from_type`: classifies the first
parameter's type, transparently unwrapping references and parentheses. -/
def extract_deps_from_type (acc : TraitGenerics) (generics : Generics) (ty : Ty) :
    TraitGenerics × Except SynError FnDeps :=
  match ty with
  | Ty.implTrait bounds =>
    deps_with_generics acc (FnDeps.generic none (extract_trait_bounds bounds)) generics
  | Ty.path qself leadingColon segments =>
    if qself then (acc, Except.error msgNoSelfAllowed)
    else if leadingColon then (acc, Except.error msgNoLeadingColon)
    else
      match segments with
      | [seg] =>
        match find_deps_generic_bounds acc generics seg.ident with
        | (acc, some deps) => (acc, Except.ok deps)
        | (acc, none) =>
          deps_with_generics acc (FnDeps.concrete (Ty.path qself leadingColon segments)) generics
      | _ =>
        deps_with_generics acc (FnDeps.concrete (Ty.path qself leadingColon segments)) generics
  | Ty.reference _ _ elem => extract_deps_from_type acc generics elem
  | Ty.paren elem => extract_deps_from_type acc generics elem
  | t => deps_with_generics acc (FnDeps.concrete t) generics

/-- `GenericsAnalyzer::analyze_fn_deps`. -/
def analyze_fn_deps (acc : TraitGenerics) (input_sig : Sig) (opts : Opts) :
    TraitGenerics × Except SynError FnDeps :=
  if opts.no_deps_value then
    deps_with_generics acc FnDeps.noDeps input_sig.generics
  else
    match input_sig.inputs with
    | [] => (acc, Except.error msgMissingDependencyReceiver)
    | first_input :: _ =>
      match first_input with
      | FnArg.receiver _ _ _ => (acc, Except.error msgSelfReceiver)
      | FnArg.typed _ _ ty => extract_deps_from_type acc input_sig.generics ty

/-! ## Trait dependency mode resolution (analyze_generics.rs) -/

inductive FnInputMode where
  | singleFn
  | module
deriving Repr, BEq, DecidableEq

inductive TraitDependencyMode where
  | generic (idents : GenericIdents)
  | concrete (ty : Ty)
deriving Repr, BEq, DecidableEq

/-- `TraitFn` from analyze_generics.rs (the fields `detect` reads plus the
rest of the record). -/
structure TraitFn where
  input_sig : Sig
  deps : FnDeps
deriving Repr, BEq, DecidableEq

/-- `detect_trait_dependency_mode`: the first concrete classification, in a
module input, is a hard error; in single-function input it pins the trait;
absence of concrete yields the generic mode with a fresh identifier
context. -/
def detect_trait_dependency_mode (input_mode : FnInputMode) (trait_fns : List TraitFn)
    (crate_idents : CrateIdents) (span : Span) : Except SynError TraitDependencyMode :=
  match trait_fns with
  | [] => Except.ok (TraitDependencyMode.generic (GenericIdents.new crate_idents span))
  | trait_fn :: rest =>
    match trait_fn.deps with
    | FnDeps.concrete ty =>
      match input_mode with
      | FnInputMode.singleFn => Except.ok (TraitDependencyMode.concrete ty)
      | FnInputMode.module => Except.error msgConcreteDepsInModule
    | _ => detect_trait_dependency_mode input_mode rest crate_idents span

/-! ## Signature converter (signature/converter.rs) -/

/-- `SigComponent` from signature/mod.rs (not under src/), modelled from the
spec: the source tag of a lifetime fact. -/
inductive SigComponent where
  | receiver
  | argument
  | ret
deriving Repr, BEq, DecidableEq

/-- `LifetimeFact`: one catalogued lifetime with its source tag and whether
the author wrote it explicitly. -/
structure LifetimeFact where
  lifetime : Ident
  source : SigComponent
  userProvided : Bool
deriving Repr, BEq, DecidableEq

/-- Structured rendering of the associated-future declaration/definition
token fragments built by `convert_to_associated_future`:
`type #fut<#fut_lifetimes>: ::#core::future::Future<Output = #output> + Send
where Self: #self_lifetimes;` for the declaration, and the
`= impl ...` form (flagged by `isImplForm`) for the definition. -/
structure FutTokens where
  fut : Ident
  futLifetimes : List Ident
  selfLifetimes : List Ident
  output : Ty
  core : Ident
  isImplForm : Bool
deriving Repr, BEq, DecidableEq

/-- `EntraitSignature` from signature/mod.rs: the rewritten signature plus
the optional paired future fragments and the lifetime catalogue. -/
structure EntraitSignature where
  sig : Sig
  associated_fut_decl : Option FutTokens
  associated_fut_impl : Option FutTokens
  lifetimes : List LifetimeFact
deriving Repr, BEq, DecidableEq

inductive ReceiverGeneration where
  | insert
  | rewrite
  | none_
deriving Repr, BEq, DecidableEq

structure SignatureConverter where
  crate_idents : CrateIdents
  trait_span : Span
  opts : Opts
  input_sig : Sig
  deps : FnDeps
  inject_dyn_impl_param : Bool
  fn_index : Nat
deriving Repr, BEq, DecidableEq

/-- `parse_quote! { &self }`: a by-reference receiver with elided lifetime
and no mutability. -/
def refSelfArg : FnArg := FnArg.receiver [] (some none) false

/-- The `__impl: &::#entrait::Impl<EntraitT>` auxiliary parameter (the
`EntraitT` type argument of the path is elided by the `Ty` model). -/
def dynImplArg (crate_idents : CrateIdents) : FnArg :=
  FnArg.typed [] (Pat.ident "__impl")
    (Ty.reference false none
      (Ty.path false true [{ ident := crate_idents.entrait }, { ident := "Impl" }]))

/-- `Punctuated::insert(1, _)`: place the argument right after the first
input.  The source unwraps and would panic on an empty list; that branch is
unreachable in the pipeline. -/
def insertSecond (inputs : List FnArg) (arg : FnArg) : List FnArg :=
  match inputs with
  | first :: rest => first :: arg :: rest
  | [] => [arg]

/-- `output_type_tokens`: a defaulted return type renders as the unit type
(represented by `Ty.other 0`). -/
def unitTy : Ty := Ty.other 0

def output_type_tokens (return_type : Option Ty) : Ty :=
  match return_type with
  | none => unitTy
  | some ty => ty

/-- The attribute-stripping loop at the top of `convert_fn_to_trait_fn`. -/
def stripArgAttrs : FnArg → FnArg
  | FnArg.receiver _ reference mutability => FnArg.receiver [] reference mutability
  | FnArg.typed _ pat ty => FnArg.typed [] pat ty

def strip_input_attrs (sig : Sig) : Sig :=
  { sig with inputs := sig.inputs.map stripArgAttrs }

/-- `SignatureConverter::detect_receiver_generation`. -/
def SignatureConverter.detect_receiver_generation (c : SignatureConverter) (sig : Sig) :
    ReceiverGeneration :=
  match c.deps with
  | FnDeps.noDeps => ReceiverGeneration.insert
  | _ =>
    if sig.inputs.isEmpty then
      if use_associated_future c.input_sig c.opts then ReceiverGeneration.insert
      else ReceiverGeneration.none_
    else ReceiverGeneration.rewrite

/-- `SignatureConverter::generate_params`: inserts or rewrites the receiver
and, when requested, injects the dynamic-implementation parameter at
position 1.  The source unwraps (and would panic) in the rewrite branch on
an empty input list or a pre-existing receiver; those branches return the
signature unchanged here and are unreachable under
`detect_receiver_generation`. -/
def SignatureConverter.generate_params (c : SignatureConverter) (sig : Sig)
    (receiver_generation : ReceiverGeneration) : Sig :=
  let sig :=
    match receiver_generation with
    | ReceiverGeneration.insert => { sig with inputs := refSelfArg :: sig.inputs }
    | ReceiverGeneration.rewrite =>
      match sig.inputs with
      | FnArg.typed _ _ ty :: rest =>
        match ty with
        | Ty.reference _ lifetime _ =>
          { sig with inputs := FnArg.receiver [] (some lifetime) false :: rest }
        | _ => { sig with inputs := refSelfArg :: rest }
      | _ => sig
    | ReceiverGeneration.none_ => sig
  if c.inject_dyn_impl_param then
    { sig with inputs := insertSecond sig.inputs (dynImplArg c.crate_idents) }
  else sig

/-- Deduplicating fact insertion: the same named lifetime contributes one
fact, first-seen source wins. -/
def addFact (facts : List LifetimeFact) (name : Ident) (source : SigComponent)
    (userProvided : Bool) : List LifetimeFact :=
  if facts.any (fun f => f.lifetime == name) then facts
  else facts ++ [{ lifetime := name, source, userProvided }]

/-- Modelled from the spec: signature/lifetimes.rs is not under src/.
Walks one type, recording a fact per lifetime reachable in it and
synthesizing fresh names (counter-numbered, not user-provided) for elided
reference lifetimes. -/
def deElideTy (source : SigComponent) :
    List LifetimeFact × Nat → Ty → (List LifetimeFact × Nat) × Ty
  | st, Ty.reference mutability lifetime elem =>
    let (st, lifetime) :=
      match lifetime with
      | some name => ((addFact st.1 name source true, st.2), some name)
      | none =>
        let fresh := "entrait" ++ toString st.2
        ((addFact st.1 fresh source false, st.2 + 1), some fresh)
    let (st, elem) := deElideTy source st elem
    (st, Ty.reference mutability lifetime elem)
  | st, Ty.paren elem =>
    let (st, elem) := deElideTy source st elem
    (st, Ty.paren elem)
  | st, Ty.path qself leadingColon segments =>
    let st := segments.foldl
      (fun st seg => seg.lifetimeArgs.foldl
        (fun (st : List LifetimeFact × Nat) name => (addFact st.1 name source true, st.2)) st)
      st
    (st, Ty.path qself leadingColon segments)
  | st, t => (st, t)

/-- Modelled from the spec: signature/lifetimes.rs is not under src/.
One argument of the post-receiver-rewrite parameter list: receiver
lifetimes record receiver-sourced facts, other parameters argument-sourced
facts. -/
def deElideArg (st : List LifetimeFact × Nat) (arg : FnArg) :
    (List LifetimeFact × Nat) × FnArg :=
  match arg with
  | FnArg.receiver attrs (some lifetime) mutability =>
    match lifetime with
    | some name =>
      ((addFact st.1 name SigComponent.receiver true, st.2),
       FnArg.receiver attrs (some (some name)) mutability)
    | none =>
      let fresh := "entrait" ++ toString st.2
      ((addFact st.1 fresh SigComponent.receiver false, st.2 + 1),
       FnArg.receiver attrs (some (some fresh)) mutability)
  | FnArg.receiver _ none _ => (st, arg)
  | FnArg.typed attrs pat ty =>
    let (st, ty) := deElideTy SigComponent.argument st ty
    (st, FnArg.typed attrs pat ty)

/-- Modelled from the spec: signature/lifetimes.rs is not under src/.
`de_elide_lifetimes` walks the parameter list in order (the receiver is
first after the rewrite), records the deterministic lifetime catalogue and
replaces elided lifetimes with synthesized names.  Return-type occurrences
introduce no new facts (per the spec they must already appear in the
parameters), so the return type is left untouched. -/
def de_elide_lifetimes (es : EntraitSignature) (_receiver_generation : ReceiverGeneration) :
    EntraitSignature :=
  let step := fun (acc : (List LifetimeFact × Nat) × List FnArg) (arg : FnArg) =>
    let (st, arg) := deElideArg acc.1 arg
    (st, acc.2 ++ [arg])
  let (st, inputs) := es.sig.inputs.foldl step (([], 0), [])
  { es with sig := { es.sig with inputs := inputs }, lifetimes := st.1 }

/-- `SignatureConverter::convert_to_associated_future` (converter.rs): after
de-eliding lifetimes, clears asyncness, adds the synthesized lifetimes as
generic parameters, renames the return type to the ordinal-named associated
future applied to every lifetime fact in recorded order, and emits the
declaration/definition fragment pair from the same identifier and lifetime
lists. -/
def SignatureConverter.convert_to_associated_future (c : SignatureConverter)
    (entrait_sig : EntraitSignature) (receiver_generation : ReceiverGeneration) :
    EntraitSignature :=
  let entrait_sig := de_elide_lifetimes entrait_sig receiver_generation
  let output_ty := output_type_tokens entrait_sig.sig.output
  let fut_lifetimes := entrait_sig.lifetimes.map (fun ft => ft.lifetime)
  let self_lifetimes :=
    (entrait_sig.lifetimes.filter (fun ft => ft.source == SigComponent.receiver)).map
      (fun ft => ft.lifetime)
  let sig := entrait_sig.sig
  let sig := { sig with asyncness := false }
  let newLifetimeParams :=
    (entrait_sig.lifetimes.filter (fun lt => !lt.userProvided)).map
      (fun lt => GenericParam.lifetime lt.lifetime)
  let sig :=
    { sig with generics := { sig.generics with params := sig.generics.params ++ newLifetimeParams } }
  let fut := "Fut" ++ toString c.fn_index
  let sig :=
    { sig with output := some (Ty.path false false
        [{ ident := "Self" }, { ident := fut, lifetimeArgs := fut_lifetimes }]) }
  { entrait_sig with
    sig := sig,
    associated_fut_decl := some
      { fut, futLifetimes := fut_lifetimes, selfLifetimes := self_lifetimes,
        output := output_ty, core := c.crate_idents.core, isImplForm := false },
    associated_fut_impl := some
      { fut, futLifetimes := fut_lifetimes, selfLifetimes := self_lifetimes,
        output := output_ty, core := c.crate_idents.core, isImplForm := true } }

/-- `is_type_eq_ident`: a single-segment path type whose segment identifier
equals the given identifier (the qualified-self flag is not inspected by
the source either). -/
def is_type_eq_ident (ty : Ty) (ident : Ident) : Bool :=
  match ty with
  | Ty.path _ _ [seg] => seg.ident == ident
  | _ => false

/-- The `deps_ident` binding at the top of `remove_generic_type_params`. -/
def depsIdent (deps : FnDeps) : Option Ident :=
  match deps with
  | FnDeps.generic (some ident) _ => some ident
  | _ => none

/-- The predicate-retention closure inside `remove_generic_type_params`: a
type predicate is kept unless the deps carry a named identifier and the
bounded type is exactly that identifier. -/
def keepPredicate (deps : FnDeps) (predicate : WherePredicate) : Bool :=
  match predicate with
  | WherePredicate.type bty _ =>
    match depsIdent deps with
    | some ident => !is_type_eq_ident bty ident
    | none => true
  | _ => true

/-- `SignatureConverter::remove_generic_type_params` (taking `self.deps` as
an explicit argument): drops every generic type parameter from the
signature and, when the deps carry a named generic identifier, every
where-predicate whose bounded type is that single-segment identifier. -/
def remove_generic_type_params (deps : FnDeps) (sig : Sig) : Sig :=
  let params := sig.generics.params.filter (fun param =>
    match param with
    | GenericParam.type _ _ => false
    | _ => true)
  let whereClause :=
    match sig.generics.whereClause with
    | none => none
    | some predicates => some (predicates.filter (keepPredicate deps))
  { sig with generics := { sig.generics with params := params, whereClause := whereClause } }

/-- `tidy_generics`: an empty where-clause is normalized to absent (the
`lt`/`gt` token clearing has no counterpart in the model). -/
def tidy_generics (generics : Generics) : Generics :=
  match generics.whereClause with
  | some predicates => if predicates.isEmpty then { generics with whereClause := none } else generics
  | none => generics

/-- Modelled from the spec: signature/fn_params.rs is not under src/.
`fix_fn_param_idents` normalizes parameter patterns to plain identifiers,
position-numbered, so the delegating call can re-cite every argument; it
touches nothing but the patterns. -/
def fix_fn_param_idents (sig : Sig) : Sig :=
  { sig with inputs := sig.inputs.mapIdx (fun i arg =>
      match arg with
      | FnArg.typed attrs pat ty =>
        let pat :=
          match pat with
          | Pat.ident name => Pat.ident name
          | _ => Pat.ident ("arg" ++ toString i)
        FnArg.typed attrs pat ty
      | receiver => receiver) }

/-- The first half of `convert_fn_to_trait_fn`: attribute stripping,
receiver generation and the optional associated-future conversion. -/
def convert_pre_removal (c : SignatureConverter) : EntraitSignature :=
  let es0 : EntraitSignature :=
    { sig := strip_input_attrs c.input_sig,
      associated_fut_decl := none, associated_fut_impl := none, lifetimes := [] }
  let receiver_generation := c.detect_receiver_generation es0.sig
  let es1 : EntraitSignature := { es0 with sig := c.generate_params es0.sig receiver_generation }
  if use_associated_future c.input_sig c.opts then
    c.convert_to_associated_future es1 receiver_generation
  else es1

/-- `SignatureConverter::convert_fn_to_trait_fn`: the full conversion
pipeline (its first half is `convert_pre_removal`). -/
def SignatureConverter.convert_fn_to_trait_fn (c : SignatureConverter) : EntraitSignature :=
  let es2 : EntraitSignature := convert_pre_removal c
  let es3 : EntraitSignature := { es2 with sig := remove_generic_type_params c.deps es2.sig }
  let es4 : EntraitSignature :=
    { es3 with sig := { es3.sig with generics := tidy_generics es3.sig.generics } }
  { es4 with sig := fix_fn_param_idents es4.sig }

def TraitFn.hasConcreteDeps (tf : TraitFn) : Bool :=
  match tf.deps with
  | FnDeps.concrete _ => true
  | _ => false

/-! ## Helper lemmas -/

theorem push_generic_params_spec (ps : List GenericParam) (acc : TraitGenerics) :
    push_generic_params acc ps =
      { params := acc.params ++ ps.filter (fun p => !p.isLifetimeParam),
        where_predicates := acc.where_predicates } := by
  induction ps generalizing acc with
  | nil => simp [push_generic_params]
  | cons p rest ih =>
    cases p <;>
      simp [push_generic_params, ih, GenericParam.isLifetimeParam, List.filter_cons]

theorem deps_with_generics_eq (acc : TraitGenerics) (deps : FnDeps) (g : Generics) :
    deps_with_generics acc deps g =
      ({ params := acc.params ++ g.params.filter (fun p => !p.isLifetimeParam),
         where_predicates := acc.where_predicates ++ g.whereClause.getD [] },
       Except.ok deps) := by
  cases h : g.whereClause <;>
    simp [deps_with_generics, push_generic_params_spec, h]

theorem deps_with_generics_snd (acc : TraitGenerics) (deps : FnDeps) (g : Generics) :
    (deps_with_generics acc deps g).2 = Except.ok deps := by
  simp [deps_with_generics_eq]

theorem find_deps_where_loop_params (ident : Ident) (preds : List WherePredicate)
    (st : TraitGenerics × List Ident) :
    (find_deps_where_loop ident st preds).1.params = st.1.params := by
  induction preds generalizing st with
  | nil => rfl
  | cons p rest ih =>
    obtain ⟨acc, bounds⟩ := st
    cases p with
    | type bty pbounds =>
      cases bty with
      | path q l segs =>
        by_cases hql : (q || l) = true
        · simp [find_deps_where_loop, hql, ih]
        · match segs with
          | [seg] =>
            by_cases hseg : (seg.ident == ident) = true <;>
              simp [find_deps_where_loop, hql, hseg, ih]
          | [] => simp [find_deps_where_loop, hql, ih]
          | s1 :: s2 :: rest2 => simp [find_deps_where_loop, hql, ih]
      | implTrait bounds2 => simp [find_deps_where_loop, ih]
      | reference m lt elem => simp [find_deps_where_loop, ih]
      | paren elem => simp [find_deps_where_loop, ih]
      | other tag => simp [find_deps_where_loop, ih]
    | other tag => simp [find_deps_where_loop, ih]

theorem pushParamsExceptFrom_gt (ps : List GenericParam) (i skip : Nat) (h : skip < i) :
    pushParamsExceptFrom i skip ps = ps := by
  induction ps generalizing i with
  | nil => rfl
  | cons p rest ih =>
    have hne : (i != skip) = true := by simp; omega
    simp [pushParamsExceptFrom, hne, ih (i + 1) (by omega)]

theorem pushParamsExceptFrom_le (ps : List GenericParam) (i skip : Nat) (h : i ≤ skip) :
    pushParamsExceptFrom i skip ps = ps.eraseIdx (skip - i) := by
  induction ps generalizing i skip with
  | nil => simp [pushParamsExceptFrom]
  | cons p rest ih =>
    by_cases heq : i = skip
    · subst heq
      have hne : (i != i) = false := by simp
      simp [pushParamsExceptFrom, hne, pushParamsExceptFrom_gt rest (i + 1) i (by omega)]
    · have hlt : i < skip := by omega
      have hne : (i != skip) = true := by simp; omega
      have hsub : skip - i = (skip - (i + 1)) + 1 := by omega
      simp [pushParamsExceptFrom, hne, ih (i + 1) skip (by omega), hsub, List.eraseIdx]

theorem pushParamsExcept_eq_eraseIdx (ps : List GenericParam) (skip : Nat) :
    pushParamsExcept ps skip = ps.eraseIdx skip := by
  simpa using pushParamsExceptFrom_le ps 0 skip (by omega)

theorem find_deps_generic_bounds_params (acc : TraitGenerics) (g : Generics) (ident : Ident)
    (idx : Nat) (bounds : List Ident) (h : findTypeParamIdx g.params ident = some (idx, bounds)) :
    (find_deps_generic_bounds acc g ident).1.params = acc.params ++ g.params.eraseIdx idx := by
  unfold find_deps_generic_bounds
  rw [h]
  cases hw : g.whereClause with
  | none => simp [pushParamsExcept_eq_eraseIdx]
  | some preds => simp [find_deps_where_loop_params, pushParamsExcept_eq_eraseIdx]

theorem extract_implTrait (acc : TraitGenerics) (g : Generics) (bounds : List Ident) :
    extract_deps_from_type acc g (Ty.implTrait bounds) =
      deps_with_generics acc (FnDeps.generic none (extract_trait_bounds bounds)) g := rfl

theorem extract_reference (acc : TraitGenerics) (g : Generics) (m : Bool) (lt : Option Ident)
    (elem : Ty) :
    extract_deps_from_type acc g (Ty.reference m lt elem) = extract_deps_from_type acc g elem :=
  rfl

theorem extract_paren (acc : TraitGenerics) (g : Generics) (elem : Ty) :
    extract_deps_from_type acc g (Ty.paren elem) = extract_deps_from_type acc g elem := rfl

theorem extract_other (acc : TraitGenerics) (g : Generics) (tag : Nat) :
    extract_deps_from_type acc g (Ty.other tag) =
      deps_with_generics acc (FnDeps.concrete (Ty.other tag)) g := rfl

theorem extract_path_qself (acc : TraitGenerics) (g : Generics) (l : Bool)
    (segs : List PathSegment) :
    extract_deps_from_type acc g (Ty.path true l segs) = (acc, Except.error msgNoSelfAllowed) :=
  rfl

theorem extract_path_leading (acc : TraitGenerics) (g : Generics) (segs : List PathSegment) :
    extract_deps_from_type acc g (Ty.path false true segs) =
      (acc, Except.error msgNoLeadingColon) := rfl

theorem extract_path_single (acc : TraitGenerics) (g : Generics) (seg : PathSegment) :
    extract_deps_from_type acc g (Ty.path false false [seg]) =
      (match find_deps_generic_bounds acc g seg.ident with
       | (acc, some deps) => (acc, Except.ok deps)
       | (acc, none) =>
         deps_with_generics acc (FnDeps.concrete (Ty.path false false [seg])) g) := rfl

theorem extract_path_nil (acc : TraitGenerics) (g : Generics) :
    extract_deps_from_type acc g (Ty.path false false []) =
      deps_with_generics acc (FnDeps.concrete (Ty.path false false [])) g := rfl

theorem extract_path_multi (acc : TraitGenerics) (g : Generics) (s1 s2 : PathSegment)
    (rest : List PathSegment) :
    extract_deps_from_type acc g (Ty.path false false (s1 :: s2 :: rest)) =
      deps_with_generics acc (FnDeps.concrete (Ty.path false false (s1 :: s2 :: rest))) g := rfl

theorem extract_deps_error_acc (t : Ty) (acc : TraitGenerics) (g : Generics) (e : SynError)
    (h : (extract_deps_from_type acc g t).2 = Except.error e) :
    (extract_deps_from_type acc g t).1 = acc := by
  induction t generalizing acc with
  | implTrait bounds =>
    rw [extract_implTrait, deps_with_generics_eq] at h
    exact absurd h (by simp)
  | path qself leadingColon segments =>
    cases qself with
    | true => rw [extract_path_qself]
    | false =>
      cases leadingColon with
      | true => rw [extract_path_leading]
      | false =>
        exfalso
        match segments with
        | [seg] =>
          rw [extract_path_single] at h
          rcases hf : find_deps_generic_bounds acc g seg.ident with ⟨acc2, res⟩
          cases res with
          | some deps => rw [hf] at h; exact absurd h (by simp)
          | none =>
            rw [hf] at h
            simp only [deps_with_generics_eq] at h
            exact absurd h (by simp)
        | [] =>
          rw [extract_path_nil, deps_with_generics_eq] at h
          exact absurd h (by simp)
        | s1 :: s2 :: rest =>
          rw [extract_path_multi, deps_with_generics_eq] at h
          exact absurd h (by simp)
  | reference m lt elem ih =>
    rw [extract_reference] at h ⊢
    exact ih acc h
  | paren elem ih =>
    rw [extract_paren] at h ⊢
    exact ih acc h
  | other tag =>
    rw [extract_other, deps_with_generics_eq] at h
    exact absurd h (by simp)

/-- An empty accumulator, as created by `GenericsAnalyzer::new`. -/
def emptyAcc : TraitGenerics := { params := [], where_predicates := [] }

/-- Default options: no flag set, no async hack. -/
def defaultOpts : Opts := { no_deps := none, async_strategy := AsyncStrategy.noHack }

/-- A minimal signature, reused by concrete witnesses. -/
def sampleSig : Sig :=
  { ident := "f", asyncness := false, inputs := [], output := none,
    generics := { params := [], whereClause := none } }

/-! ## Claim theorems -/

/-- Claim C8: dependency classification is invariant under reference and
parenthesis wrapping of the first parameter's type: wrapping the type in
`&`, `&mut` or parentheses changes neither the returned dependency shape
nor the accumulator contribution, both at the classification point and
through `analyze_fn_deps`. -/
theorem dependency_classification_wrapper_transparent :
    (∀ (acc : TraitGenerics) (g : Generics) (m : Bool) (lt : Option Ident) (t : Ty),
      extract_deps_from_type acc g (Ty.reference m lt t) = extract_deps_from_type acc g t) ∧
    (∀ (acc : TraitGenerics) (g : Generics) (t : Ty),
      extract_deps_from_type acc g (Ty.paren t) = extract_deps_from_type acc g t) ∧
    (∀ (acc : TraitGenerics) (s : Sig) (opts : Opts) (attrs : List Nat) (pat : Pat)
       (m : Bool) (lt : Option Ident) (t : Ty) (rest : List FnArg),
      analyze_fn_deps acc { s with inputs := FnArg.typed attrs pat (Ty.reference m lt t) :: rest }
          opts
        = analyze_fn_deps acc { s with inputs := FnArg.typed attrs pat t :: rest } opts ∧
      analyze_fn_deps acc { s with inputs := FnArg.typed attrs pat (Ty.paren t) :: rest } opts
        = analyze_fn_deps acc { s with inputs := FnArg.typed attrs pat t :: rest } opts) := by
  refine ⟨fun _ _ _ _ _ => rfl, fun _ _ _ => rfl, ?_⟩
  intro acc s opts attrs pat m lt t rest
  constructor <;>
    (cases h : opts.no_deps_value <;>
      simp [analyze_fn_deps, h, extract_reference, extract_paren])

/-- Claim C10: whenever dependency classification returns an error (empty
parameter list, receiver in first position, qualified-self or
leading-colon path), the trait generics accumulator is left exactly as it
was before the call. -/
theorem analyze_fn_deps_error_leaves_accumulator
    (acc : TraitGenerics) (input_sig : Sig) (opts : Opts) (e : SynError)
    (h : (analyze_fn_deps acc input_sig opts).2 = Except.error e) :
    (analyze_fn_deps acc input_sig opts).1 = acc := by
  cases hnd : opts.no_deps_value with
  | true =>
    rw [analyze_fn_deps] at h
    rw [if_pos hnd, deps_with_generics_eq] at h
    exact absurd h (by simp)
  | false =>
    match hin : input_sig.inputs with
    | [] =>
      rw [analyze_fn_deps, if_neg (by simp [hnd]), hin]
    | FnArg.receiver a r mu :: rest =>
      rw [analyze_fn_deps, if_neg (by simp [hnd]), hin]
    | FnArg.typed a p ty :: rest =>
      rw [analyze_fn_deps, if_neg (by simp [hnd]), hin] at h ⊢
      exact extract_deps_error_acc ty acc input_sig.generics e h

/-- Claim C10 witness: an empty parameter list without no_deps errors and
leaves a non-empty accumulator untouched. -/
theorem analyze_fn_deps_error_leaves_accumulator_witness :
    (analyze_fn_deps { params := [GenericParam.const "N"], where_predicates := [] }
        sampleSig defaultOpts).2 = Except.error msgMissingDependencyReceiver ∧
    (analyze_fn_deps { params := [GenericParam.const "N"], where_predicates := [] }
        sampleSig defaultOpts).1
      = { params := [GenericParam.const "N"], where_predicates := [] } :=
  ⟨rfl,
   analyze_fn_deps_error_leaves_accumulator _ _ _ msgMissingDependencyReceiver rfl⟩

/-- Claim C7: with the no_deps option set, classification returns NoDeps
without inspecting the parameter list (an empty parameter list included),
and all type and const generic parameters plus all where-predicates are
still moved into the accumulator. -/
theorem no_deps_analysis_spec (acc : TraitGenerics) (input_sig : Sig) (opts : Opts)
    (h : opts.no_deps_value = true) :
    analyze_fn_deps acc input_sig opts =
      ({ params := acc.params ++ input_sig.generics.params.filter (fun p => !p.isLifetimeParam),
         where_predicates := acc.where_predicates ++ input_sig.generics.whereClause.getD [] },
       Except.ok FnDeps.noDeps) ∧
    analyze_fn_deps acc { input_sig with inputs := [] } opts
      = analyze_fn_deps acc input_sig opts := by
  constructor
  · rw [analyze_fn_deps, if_pos h, deps_with_generics_eq]
  · rw [analyze_fn_deps, if_pos h, analyze_fn_deps, if_pos h]

/-- Claim C7 witness: a parameter-less function under no_deps succeeds and
relocates its type parameter and where-predicate. -/
theorem no_deps_analysis_spec_witness :
    ({ no_deps := some true, async_strategy := AsyncStrategy.noHack } : Opts).no_deps_value
      = true ∧
    analyze_fn_deps emptyAcc
        { sampleSig with
          generics := { params := [GenericParam.type "T" [], GenericParam.lifetime "a"],
                        whereClause := some [WherePredicate.other 7] } }
        { no_deps := some true, async_strategy := AsyncStrategy.noHack }
      = ({ params := [GenericParam.type "T" []], where_predicates := [WherePredicate.other 7] },
         Except.ok FnDeps.noDeps) :=
  ⟨rfl, by
    have h := (no_deps_analysis_spec emptyAcc
      { sampleSig with
        generics := { params := [GenericParam.type "T" [], GenericParam.lifetime "a"],
                      whereClause := some [WherePredicate.other 7] } }
      { no_deps := some true, async_strategy := AsyncStrategy.noHack } rfl).1
    simpa using h⟩

set_option maxRecDepth 8192 in
/-- Claim C6: resolving the trait dependency mode scans for the first
concrete classification; in a module input it is a hard error whose
message suggests the manual-trait alternative, in single-function input it
pins the trait to that type, and absence of concrete yields the generic
mode with a fresh identifier context. -/
theorem trait_dependency_mode_resolution_spec :
    (∀ (fns : List TraitFn) (ci : CrateIdents) (span : Span) (mode : FnInputMode),
      fns.all (fun tf => !tf.hasConcreteDeps) = true →
      detect_trait_dependency_mode mode fns ci span
        = Except.ok (TraitDependencyMode.generic (GenericIdents.new ci span))) ∧
    (∀ (fns : List TraitFn) (ci : CrateIdents) (span : Span) (tf : TraitFn) (ty : Ty),
      fns.find? TraitFn.hasConcreteDeps = some tf →
      tf.deps = FnDeps.concrete ty →
      detect_trait_dependency_mode FnInputMode.singleFn fns ci span
          = Except.ok (TraitDependencyMode.concrete ty) ∧
      detect_trait_dependency_mode FnInputMode.module fns ci span
          = Except.error msgConcreteDepsInModule) ∧
    msgConcreteDepsInModule
      = "Using concrete dependencies in a module is an anti-pattern. Instead, "
        ++ "write a trait manually"
        ++ ", use the #[entrait] attribute on it, and implement it for your application type" := by
  refine ⟨?_, ?_, by decide⟩
  · intro fns ci span mode
    induction fns with
    | nil => intro _; rfl
    | cons tf rest ih =>
      intro hall
      simp only [List.all_cons, Bool.and_eq_true] at hall
      obtain ⟨h1, h2⟩ := hall
      cases hd : tf.deps with
      | noDeps => simpa [detect_trait_dependency_mode, hd] using ih h2
      | generic gp tb => simpa [detect_trait_dependency_mode, hd] using ih h2
      | concrete ty =>
        exfalso
        simp [TraitFn.hasConcreteDeps, hd] at h1
  · intro fns ci span tf ty
    induction fns with
    | nil => intro hfind _; simp at hfind
    | cons tf0 rest ih =>
      intro hfind hdeps
      by_cases hc : tf0.hasConcreteDeps = true
      · rw [List.find?_cons_of_pos _ hc] at hfind
        injection hfind with heq
        subst heq
        exact ⟨by simp [detect_trait_dependency_mode, hdeps],
               by simp [detect_trait_dependency_mode, hdeps]⟩
      · rw [List.find?_cons_of_neg _ (by simpa using hc)] at hfind
        cases hd0 : tf0.deps with
        | concrete ty0 => exact absurd (by simp [TraitFn.hasConcreteDeps, hd0]) hc
        | noDeps => simpa [detect_trait_dependency_mode, hd0] using ih hfind hdeps
        | generic gp tb => simpa [detect_trait_dependency_mode, hd0] using ih hfind hdeps

/-- Claim C6 witness: a two-function module whose second function is
concrete errors with the manual-trait message; the same concrete function
alone in single-function mode pins the trait; no concrete yields generic
mode. -/
theorem trait_dependency_mode_resolution_witness :
    detect_trait_dependency_mode FnInputMode.module
        [{ input_sig := sampleSig, deps := FnDeps.generic (some "D") ["Bar"] },
         { input_sig := sampleSig,
           deps := FnDeps.concrete (Ty.path false false [{ ident := "App" }]) }]
        { entrait := "entrait", core := "core" } 0
      = Except.error msgConcreteDepsInModule ∧
    detect_trait_dependency_mode FnInputMode.singleFn
        [{ input_sig := sampleSig,
           deps := FnDeps.concrete (Ty.path false false [{ ident := "App" }]) }]
        { entrait := "entrait", core := "core" } 0
      = Except.ok (TraitDependencyMode.concrete (Ty.path false false [{ ident := "App" }])) ∧
    detect_trait_dependency_mode FnInputMode.module
        [{ input_sig := sampleSig, deps := FnDeps.generic (some "D") ["Bar"] }]
        { entrait := "entrait", core := "core" } 0
      = Except.ok (TraitDependencyMode.generic
          (GenericIdents.new { entrait := "entrait", core := "core" } 0)) :=
  ⟨(trait_dependency_mode_resolution_spec.2.1
      [{ input_sig := sampleSig, deps := FnDeps.generic (some "D") ["Bar"] },
       { input_sig := sampleSig,
         deps := FnDeps.concrete (Ty.path false false [{ ident := "App" }]) }]
      { entrait := "entrait", core := "core" } 0
      { input_sig := sampleSig,
        deps := FnDeps.concrete (Ty.path false false [{ ident := "App" }]) }
      (Ty.path false false [{ ident := "App" }]) rfl rfl).2,
   (trait_dependency_mode_resolution_spec.2.1
      [{ input_sig := sampleSig,
         deps := FnDeps.concrete (Ty.path false false [{ ident := "App" }]) }]
      { entrait := "entrait", core := "core" } 0
      { input_sig := sampleSig,
        deps := FnDeps.concrete (Ty.path false false [{ ident := "App" }]) }
      (Ty.path false false [{ ident := "App" }]) rfl rfl).1,
   trait_dependency_mode_resolution_spec.1
      [{ input_sig := sampleSig, deps := FnDeps.generic (some "D") ["Bar"] }]
      { entrait := "entrait", core := "core" } 0 FnInputMode.module rfl⟩

/-- Claim C1 counterexample: a first-parameter type that is a
leading-separator path with no qualified self and no matching generic
parameter is rejected with the leading-colon error instead of being
accepted as Concrete. -/
theorem leading_colon_rejected_counterexample :
    (extract_deps_from_type emptyAcc { params := [], whereClause := none }
        (Ty.path false true [{ ident := "external" }, { ident := "Dep" }])).2
      = Except.error msgNoLeadingColon ∧
    (extract_deps_from_type emptyAcc { params := [], whereClause := none }
        (Ty.path false true [{ ident := "external" }, { ident := "Dep" }])).2
      ≠ Except.ok (FnDeps.concrete
          (Ty.path false true [{ ident := "external" }, { ident := "Dep" }])) := by
  refine ⟨rfl, ?_⟩
  intro h
  rw [extract_path_leading] at h
  exact Except.noConfusion h

/-- Claim C1 amended: at the top-level classification point both
qualified-self and leading-separator paths are rejected as malformed
(with the no-self and no-leading-colon errors respectively); only
multi-segment paths and unmatched single-segment paths without either
feature are classified Concrete. -/
theorem path_classification_amended :
    (∀ (acc : TraitGenerics) (g : Generics) (l : Bool) (segs : List PathSegment),
      extract_deps_from_type acc g (Ty.path true l segs)
        = (acc, Except.error msgNoSelfAllowed)) ∧
    (∀ (acc : TraitGenerics) (g : Generics) (segs : List PathSegment),
      extract_deps_from_type acc g (Ty.path false true segs)
        = (acc, Except.error msgNoLeadingColon)) ∧
    (∀ (acc : TraitGenerics) (g : Generics) (seg : PathSegment),
      findTypeParamIdx g.params seg.ident = none →
      (extract_deps_from_type acc g (Ty.path false false [seg])).2
        = Except.ok (FnDeps.concrete (Ty.path false false [seg]))) ∧
    (∀ (acc : TraitGenerics) (g : Generics) (s1 s2 : PathSegment) (rest : List PathSegment),
      (extract_deps_from_type acc g (Ty.path false false (s1 :: s2 :: rest))).2
        = Except.ok (FnDeps.concrete (Ty.path false false (s1 :: s2 :: rest)))) := by
  refine ⟨fun _ _ _ _ => rfl, fun _ _ _ => rfl, ?_, ?_⟩
  · intro acc g seg h
    have hf : find_deps_generic_bounds acc g seg.ident = (acc, none) := by
      unfold find_deps_generic_bounds
      rw [h]
    rw [extract_path_single, hf]
    simp [deps_with_generics_eq]
  · intro acc g s1 s2 rest
    rw [extract_path_multi, deps_with_generics_eq]

/-- Claim C1 amended witness: a concrete unmatched single-segment path is
classified Concrete and a concrete qualified-self path errors. -/
theorem path_classification_amended_witness :
    findTypeParamIdx ([] : List GenericParam)
        (PathSegment.ident { ident := "Unknown" }) = none ∧
    (extract_deps_from_type emptyAcc { params := [], whereClause := none }
        (Ty.path false false [{ ident := "Unknown" }])).2
      = Except.ok (FnDeps.concrete (Ty.path false false [{ ident := "Unknown" }])) ∧
    extract_deps_from_type emptyAcc { params := [], whereClause := none }
        (Ty.path true false [{ ident := "S" }])
      = (emptyAcc, Except.error msgNoSelfAllowed) :=
  ⟨rfl,
   path_classification_amended.2.2.1 emptyAcc { params := [], whereClause := none }
     { ident := "Unknown" } rfl,
   path_classification_amended.1 emptyAcc { params := [], whereClause := none } false
     [{ ident := "S" }]⟩

/-- Claim C2 counterexample: classifying `fn foo<'a, D: Bar>(deps: &D)`
pushes the lifetime parameter into the trait generics accumulator. -/
theorem lifetime_in_accumulator_counterexample :
    (analyze_fn_deps emptyAcc
        { ident := "foo", asyncness := false,
          inputs := [FnArg.typed [] (Pat.ident "deps")
            (Ty.reference false none (Ty.path false false [{ ident := "D" }]))],
          output := none,
          generics := { params := [GenericParam.lifetime "a", GenericParam.type "D" ["Bar"]],
                        whereClause := none } }
        defaultOpts).1.params
      = [GenericParam.lifetime "a"] ∧
    GenericParam.lifetime "a" ∈
      (analyze_fn_deps emptyAcc
        { ident := "foo", asyncness := false,
          inputs := [FnArg.typed [] (Pat.ident "deps")
            (Ty.reference false none (Ty.path false false [{ ident := "D" }]))],
          output := none,
          generics := { params := [GenericParam.lifetime "a", GenericParam.type "D" ["Bar"]],
                        whereClause := none } }
        defaultOpts).1.params := by
  refine ⟨rfl, ?_⟩
  have h : (analyze_fn_deps emptyAcc
      { ident := "foo", asyncness := false,
        inputs := [FnArg.typed [] (Pat.ident "deps")
          (Ty.reference false none (Ty.path false false [{ ident := "D" }]))],
        output := none,
        generics := { params := [GenericParam.lifetime "a", GenericParam.type "D" ["Bar"]],
                      whereClause := none } }
      defaultOpts).1.params = [GenericParam.lifetime "a"] := rfl
  rw [h]
  exact List.mem_singleton_self _

/-- Claim C2 amended: in the NoDependency, InlineBounds and Concrete
classification paths no lifetime generic parameter is added to the
accumulator; in the NamedGeneric path every generic parameter other than
the matched one — lifetime parameters included — is pushed into the
accumulator. -/
theorem accumulator_lifetime_params_amended :
    (∀ (acc : TraitGenerics) (deps : FnDeps) (g : Generics),
      ((deps_with_generics acc deps g).1.params.filter GenericParam.isLifetimeParam)
        = acc.params.filter GenericParam.isLifetimeParam) ∧
    (∀ (acc : TraitGenerics) (g : Generics) (ident : Ident) (idx : Nat)
       (bounds : List Ident),
      findTypeParamIdx g.params ident = some (idx, bounds) →
      (find_deps_generic_bounds acc g ident).1.params
        = acc.params ++ g.params.eraseIdx idx) := by
  constructor
  · intro acc deps g
    rw [deps_with_generics_eq]
    have hnil : ∀ (l : List GenericParam),
        (l.filter (fun p => !p.isLifetimeParam)).filter GenericParam.isLifetimeParam = [] := by
      intro l
      induction l with
      | nil => rfl
      | cons p rest ih => cases hp : p.isLifetimeParam <;> simp [List.filter_cons, hp, ih]
    simp [List.filter_append, hnil]
  · exact fun acc g ident idx bounds h =>
      find_deps_generic_bounds_params acc g ident idx bounds h

/-- Claim C2 amended witness: for generics `<'a, D: Bar>` matched at `D`,
the accumulator receives exactly the erased-index remainder, here the
lifetime parameter. -/
theorem accumulator_lifetime_params_amended_witness :
    findTypeParamIdx [GenericParam.lifetime "a", GenericParam.type "D" ["Bar"]] "D"
      = some (1, ["Bar"]) ∧
    (find_deps_generic_bounds emptyAcc
        { params := [GenericParam.lifetime "a", GenericParam.type "D" ["Bar"]],
          whereClause := none } "D").1.params
      = emptyAcc.params
          ++ [GenericParam.lifetime "a", GenericParam.type "D" ["Bar"]].eraseIdx 1 :=
  ⟨rfl,
   accumulator_lifetime_params_amended.2 emptyAcc
     { params := [GenericParam.lifetime "a", GenericParam.type "D" ["Bar"]],
       whereClause := none } "D" 1 ["Bar"] rfl⟩

/-! ## Converter stage lemmas -/

theorem fix_fn_param_idents_generics (sig : Sig) :
    (fix_fn_param_idents sig).generics = sig.generics := rfl

theorem tidy_generics_params (g : Generics) : (tidy_generics g).params = g.params := by
  cases hw : g.whereClause with
  | none => simp [tidy_generics, hw]
  | some preds => by_cases hp : preds.isEmpty <;> simp [tidy_generics, hw, hp]

theorem tidy_generics_whereClause_some (g : Generics) (preds : List WherePredicate)
    (h : (tidy_generics g).whereClause = some preds) : g.whereClause = some preds := by
  cases hw : g.whereClause with
  | none => simp [tidy_generics, hw] at h
  | some ps =>
    by_cases hp : ps.isEmpty
    · simp [tidy_generics, hw, hp] at h
    · simp [tidy_generics, hw, hp] at h
      rw [h]

theorem remove_generic_type_params_params (deps : FnDeps) (sig : Sig) :
    (remove_generic_type_params deps sig).generics.params
      = sig.generics.params.filter (fun p => !p.isTypeParam) := by
  have hpred : ∀ (l : List GenericParam),
      (l.filter (fun param =>
        match param with
        | GenericParam.type _ _ => false
        | _ => true)) = l.filter (fun p => !p.isTypeParam) := by
    intro l
    induction l with
    | nil => rfl
    | cons p rest ih =>
      cases p <;> simp [List.filter_cons, ih, GenericParam.isTypeParam]
  simpa [remove_generic_type_params] using hpred sig.generics.params

theorem remove_generic_type_params_whereClause (deps : FnDeps) (sig : Sig) :
    (remove_generic_type_params deps sig).generics.whereClause
      = sig.generics.whereClause.map (fun predicates => predicates.filter (keepPredicate deps)) := by
  cases hw : sig.generics.whereClause <;> simp [remove_generic_type_params, hw]

theorem convert_sig_generics (c : SignatureConverter) :
    c.convert_fn_to_trait_fn.sig.generics
      = tidy_generics (remove_generic_type_params c.deps (convert_pre_removal c).sig).generics :=
  rfl

theorem convert_futs_eq_pre (c : SignatureConverter) :
    c.convert_fn_to_trait_fn.associated_fut_decl = (convert_pre_removal c).associated_fut_decl ∧
    c.convert_fn_to_trait_fn.associated_fut_impl = (convert_pre_removal c).associated_fut_impl ∧
    c.convert_fn_to_trait_fn.lifetimes = (convert_pre_removal c).lifetimes :=
  ⟨rfl, rfl, rfl⟩

theorem pre_removal_futs_none (c : SignatureConverter)
    (hf : use_associated_future c.input_sig c.opts = false) :
    (convert_pre_removal c).associated_fut_decl = none ∧
    (convert_pre_removal c).associated_fut_impl = none := by
  constructor <;> simp [convert_pre_removal, hf]

theorem pre_removal_futs_some (c : SignatureConverter)
    (hf : use_associated_future c.input_sig c.opts = true) :
    convert_pre_removal c = c.convert_to_associated_future
      { sig := c.generate_params (strip_input_attrs c.input_sig)
          (c.detect_receiver_generation (strip_input_attrs c.input_sig)),
        associated_fut_decl := none, associated_fut_impl := none, lifetimes := [] }
      (c.detect_receiver_generation (strip_input_attrs c.input_sig)) := by
  simp [convert_pre_removal, hf]

theorem ctaf_futs (c : SignatureConverter) (es : EntraitSignature) (rg : ReceiverGeneration) :
    (c.convert_to_associated_future es rg).lifetimes = (de_elide_lifetimes es rg).lifetimes ∧
    (c.convert_to_associated_future es rg).associated_fut_decl
      = some { fut := "Fut" ++ toString c.fn_index,
               futLifetimes := (de_elide_lifetimes es rg).lifetimes.map (fun ft => ft.lifetime),
               selfLifetimes := ((de_elide_lifetimes es rg).lifetimes.filter
                   (fun ft => ft.source == SigComponent.receiver)).map (fun ft => ft.lifetime),
               output := output_type_tokens (de_elide_lifetimes es rg).sig.output,
               core := c.crate_idents.core, isImplForm := false } ∧
    (c.convert_to_associated_future es rg).associated_fut_impl
      = some { fut := "Fut" ++ toString c.fn_index,
               futLifetimes := (de_elide_lifetimes es rg).lifetimes.map (fun ft => ft.lifetime),
               selfLifetimes := ((de_elide_lifetimes es rg).lifetimes.filter
                   (fun ft => ft.source == SigComponent.receiver)).map (fun ft => ft.lifetime),
               output := output_type_tokens (de_elide_lifetimes es rg).sig.output,
               core := c.crate_idents.core, isImplForm := true } :=
  ⟨rfl, rfl, rfl⟩

/-! ## Remaining claim theorems -/

/-- Claim C9: the converted trait-method signature contains no generic type
parameter at all — signature conversion removes every type parameter, not
only the one matching a NamedGeneric identifier — while
`remove_generic_type_params` keeps exactly the const and lifetime
parameters. -/
theorem converted_signature_no_type_params (c : SignatureConverter) (deps : FnDeps)
    (sig : Sig) :
    (c.convert_fn_to_trait_fn.sig.generics.params.all (fun p => !p.isTypeParam)) = true ∧
    (remove_generic_type_params deps sig).generics.params
      = sig.generics.params.filter (fun p => !p.isTypeParam) := by
  refine ⟨?_, remove_generic_type_params_params deps sig⟩
  rw [convert_sig_generics, tidy_generics_params, remove_generic_type_params_params]
  have hall : ∀ (l : List GenericParam),
      (l.filter (fun p => !p.isTypeParam)).all (fun p => !p.isTypeParam) = true := by
    intro l
    induction l with
    | nil => rfl
    | cons p rest ih =>
      cases hp : p.isTypeParam <;> simp [List.filter_cons, hp, ih]
  exact hall _

/-- Claim C3: for a NamedGeneric classification with identifier D, the
converted trait-method signature's generic parameter list contains no type
parameter named D, and its where-clause contains no predicate whose
bounded type is exactly the single-segment path D. -/
theorem named_generic_removed_from_signature (c : SignatureConverter) (d : Ident)
    (bs : List Ident) (hdeps : c.deps = FnDeps.generic (some d) bs) :
    (∀ (bs' : List Ident),
      GenericParam.type d bs' ∉ c.convert_fn_to_trait_fn.sig.generics.params) ∧
    (∀ (preds : List WherePredicate),
      c.convert_fn_to_trait_fn.sig.generics.whereClause = some preds →
      ∀ (bnds : List Ident),
        WherePredicate.type (Ty.path false false [{ ident := d }]) bnds ∉ preds) := by
  constructor
  · intro bs' hmem
    rw [convert_sig_generics, tidy_generics_params,
      remove_generic_type_params_params] at hmem
    have hk := (List.mem_filter.mp hmem).2
    simp [GenericParam.isTypeParam] at hk
  · intro preds hsome bnds hmem
    rw [convert_sig_generics] at hsome
    have h2 := tidy_generics_whereClause_some _ _ hsome
    rw [remove_generic_type_params_whereClause] at h2
    cases hw : (convert_pre_removal c).sig.generics.whereClause with
    | none => rw [hw] at h2; simp at h2
    | some ps =>
      rw [hw] at h2
      simp only [Option.map_some'] at h2
      injection h2 with h2
      rw [← h2] at hmem
      have hk := (List.mem_filter.mp hmem).2
      rw [hdeps] at hk
      simp [keepPredicate, depsIdent, is_type_eq_ident] at hk

/-- The signature of `fn foo<D: Bar>(deps: &D, x: X) -> X where D: Baz`. -/
def sigNamed : Sig :=
  { ident := "foo", asyncness := false,
    inputs := [FnArg.typed [] (Pat.ident "deps")
        (Ty.reference false none (Ty.path false false [{ ident := "D" }])),
      FnArg.typed [] (Pat.ident "x") (Ty.other 3)],
    output := some (Ty.other 3),
    generics := { params := [GenericParam.type "D" ["Bar"]],
                  whereClause := some [WherePredicate.type
                    (Ty.path false false [{ ident := "D" }]) ["Baz"]] } }

/-- A NamedGeneric converter used by concrete witnesses. -/
def cNamed : SignatureConverter :=
  { crate_idents := { entrait := "entrait", core := "core" }, trait_span := 0,
    opts := defaultOpts,
    input_sig := sigNamed,
    deps := FnDeps.generic (some "D") ["Bar"],
    inject_dyn_impl_param := false, fn_index := 0 }

/-- Claim C3 witness: the matched identifier D is gone from the converted
signature of a concrete NamedGeneric function. -/
theorem named_generic_removed_witness :
    cNamed.deps = FnDeps.generic (some "D") ["Bar"] ∧
    GenericParam.type "D" ["Bar"] ∉ cNamed.convert_fn_to_trait_fn.sig.generics.params :=
  ⟨rfl, (named_generic_removed_from_signature cNamed "D" ["Bar"] rfl).1 ["Bar"]⟩

/-- Claim C4: the associated-future declaration and definition fragments
are produced together or not at all; when produced they agree on the
ordinal-named future identifier (Fut0 at ordinal 0, Fut1 at ordinal 1) and
on the lifetime parameter list, in the recorded lifetime-fact order. -/
theorem associated_future_fragments_spec (c : SignatureConverter) :
    (c.convert_fn_to_trait_fn.associated_fut_decl.map FutTokens.fut
      = c.convert_fn_to_trait_fn.associated_fut_impl.map FutTokens.fut) ∧
    (c.convert_fn_to_trait_fn.associated_fut_decl.map FutTokens.futLifetimes
      = c.convert_fn_to_trait_fn.associated_fut_impl.map FutTokens.futLifetimes) ∧
    (use_associated_future c.input_sig c.opts = true →
      c.convert_fn_to_trait_fn.associated_fut_decl.map FutTokens.fut
        = some ("Fut" ++ toString c.fn_index) ∧
      c.convert_fn_to_trait_fn.associated_fut_decl.map FutTokens.futLifetimes
        = some (c.convert_fn_to_trait_fn.lifetimes.map (fun ft => ft.lifetime))) ∧
    (use_associated_future c.input_sig c.opts = false →
      c.convert_fn_to_trait_fn.associated_fut_decl = none ∧
      c.convert_fn_to_trait_fn.associated_fut_impl = none) := by
  obtain ⟨hd, hi, hl⟩ := convert_futs_eq_pre c
  cases hf : use_associated_future c.input_sig c.opts with
  | false =>
    obtain ⟨h1, h2⟩ := pre_removal_futs_none c hf
    refine ⟨?_, ?_, fun hcontra => absurd hcontra (by simp [hf]), fun _ => ?_⟩
    · rw [hd, hi, h1, h2]
    · rw [hd, hi, h1, h2]
    · exact ⟨hd.trans h1, hi.trans h2⟩
  | true =>
    have hpre := pre_removal_futs_some c hf
    obtain ⟨hl2, hdecl, himpl⟩ := ctaf_futs c
      { sig := c.generate_params (strip_input_attrs c.input_sig)
          (c.detect_receiver_generation (strip_input_attrs c.input_sig)),
        associated_fut_decl := none, associated_fut_impl := none, lifetimes := [] }
      (c.detect_receiver_generation (strip_input_attrs c.input_sig))
    rw [hpre] at hd hi hl
    rw [hdecl] at hd
    rw [himpl] at hi
    rw [hl2] at hl
    refine ⟨?_, ?_, fun _ => ⟨?_, ?_⟩, fun hcontra => absurd hcontra (by simp [hf])⟩
    · rw [hd, hi]; simp
    · rw [hd, hi]; simp
    · rw [hd]; simp
    · rw [hd, hl]; simp

/-- An async signature and associated-future options, for witnesses. -/
def asyncSig : Sig :=
  { ident := "f", asyncness := true, inputs := [], output := none,
    generics := { params := [], whereClause := none } }

def futOpts : Opts := { no_deps := none, async_strategy := AsyncStrategy.associatedFuture }

def cFut0 : SignatureConverter :=
  { crate_idents := { entrait := "entrait", core := "core" }, trait_span := 0,
    opts := futOpts, input_sig := asyncSig, deps := FnDeps.noDeps,
    inject_dyn_impl_param := false, fn_index := 0 }

def cFut1 : SignatureConverter := { cFut0 with fn_index := 1 }

/-- Claim C4 witness: ordinal 0 yields Fut0 and ordinal 1 yields Fut1. -/
theorem associated_future_fragments_witness :
    use_associated_future asyncSig futOpts = true ∧
    cFut0.convert_fn_to_trait_fn.associated_fut_decl.map FutTokens.fut = some "Fut0" ∧
    cFut1.convert_fn_to_trait_fn.associated_fut_decl.map FutTokens.fut = some "Fut1" := by
  refine ⟨rfl, ?_, ?_⟩
  · rw [((associated_future_fragments_spec cFut0).2.2.1 rfl).1]; rfl
  · rw [((associated_future_fragments_spec cFut1).2.2.1 rfl).1]; rfl

/-- Claim C5: the receiver-generation policy is Insert exactly for
NoDependency or for an empty parameter list with future conversion
requested; a reference-typed dependency parameter is rewritten to a self
reference keeping its lifetime and dropping mutability; a non-reference
dependency parameter becomes plain `&self`; an empty parameter list
without future conversion yields no transformation. -/
theorem receiver_generation_spec (c : SignatureConverter) (sig : Sig)
    (hinj : c.inject_dyn_impl_param = false) :
    (c.detect_receiver_generation sig = ReceiverGeneration.insert ↔
      (c.deps = FnDeps.noDeps ∨
        (sig.inputs = [] ∧ use_associated_future c.input_sig c.opts = true))) ∧
    (∀ (attrs : List Nat) (pat : Pat) (m : Bool) (lt : Option Ident) (elem : Ty)
       (rest : List FnArg),
      sig.inputs = FnArg.typed attrs pat (Ty.reference m lt elem) :: rest →
      c.generate_params sig ReceiverGeneration.rewrite
        = { sig with inputs := FnArg.receiver [] (some lt) false :: rest }) ∧
    (∀ (attrs : List Nat) (pat : Pat) (ty : Ty) (rest : List FnArg),
      sig.inputs = FnArg.typed attrs pat ty :: rest →
      (∀ (m : Bool) (lt : Option Ident) (elem : Ty), ty ≠ Ty.reference m lt elem) →
      c.generate_params sig ReceiverGeneration.rewrite
        = { sig with inputs := refSelfArg :: rest }) ∧
    (c.generate_params sig ReceiverGeneration.insert
      = { sig with inputs := refSelfArg :: sig.inputs }) ∧
    (sig.inputs = [] → use_associated_future c.input_sig c.opts = false →
      c.deps ≠ FnDeps.noDeps →
      c.detect_receiver_generation sig = ReceiverGeneration.none_ ∧
      c.generate_params sig ReceiverGeneration.none_ = sig) := by
  refine ⟨?_, ?_, ?_, ?_, ?_⟩
  · cases hd : c.deps with
    | noDeps => simp [SignatureConverter.detect_receiver_generation, hd]
    | generic gp tb =>
      cases hin : sig.inputs with
      | nil =>
        cases hfut : use_associated_future c.input_sig c.opts <;>
          simp [SignatureConverter.detect_receiver_generation, hd, hin, hfut]
      | cons a rest =>
        simp [SignatureConverter.detect_receiver_generation, hd, hin]
    | concrete ty =>
      cases hin : sig.inputs with
      | nil =>
        cases hfut : use_associated_future c.input_sig c.opts <;>
          simp [SignatureConverter.detect_receiver_generation, hd, hin, hfut]
      | cons a rest =>
        simp [SignatureConverter.detect_receiver_generation, hd, hin]
  · intro attrs pat m lt elem rest hin
    simp [SignatureConverter.generate_params, hinj, hin]
  · intro attrs pat ty rest hin hnotref
    cases ty with
    | reference m lt elem => exact absurd rfl (hnotref m lt elem)
    | implTrait bounds => simp [SignatureConverter.generate_params, hinj, hin]
    | path q l segs => simp [SignatureConverter.generate_params, hinj, hin]
    | paren e => simp [SignatureConverter.generate_params, hinj, hin]
    | other tag => simp [SignatureConverter.generate_params, hinj, hin]
  · simp [SignatureConverter.generate_params, hinj]
  · intro hin hfut hnd
    constructor
    · cases hd : c.deps with
      | noDeps => exact absurd hd hnd
      | generic gp tb =>
        simp [SignatureConverter.detect_receiver_generation, hd, hin, hfut]
      | concrete ty =>
        simp [SignatureConverter.detect_receiver_generation, hd, hin, hfut]
    · simp [SignatureConverter.generate_params, hinj]

/-- A signature whose dependency parameter is a `&mut` reference with an
explicit lifetime, for the rewrite witness. -/
def sigRef : Sig :=
  { ident := "get", asyncness := false,
    inputs := [FnArg.typed [] (Pat.ident "deps")
        (Ty.reference true (some "a") (Ty.path false false [{ ident := "State" }])),
      FnArg.typed [] (Pat.ident "x") (Ty.other 3)],
    output := some (Ty.other 3),
    generics := { params := [], whereClause := none } }

/-- Claim C5 witness: NoDependency chooses Insert, and a mutable reference
dependency parameter is rewritten to an immutable self reference that
keeps the explicit lifetime. -/
theorem receiver_generation_witness :
    cFut0.detect_receiver_generation sampleSig = ReceiverGeneration.insert ∧
    cNamed.generate_params sigRef ReceiverGeneration.rewrite
      = { sigRef with inputs := [FnArg.receiver [] (some (some "a")) false,
          FnArg.typed [] (Pat.ident "x") (Ty.other 3)] } :=
  ⟨(receiver_generation_spec cFut0 sampleSig rfl).1.mpr (Or.inl rfl),
   (receiver_generation_spec cNamed sigRef rfl).2.1 [] (Pat.ident "deps") true (some "a")
     (Ty.path false false [{ ident := "State" }])
     [FnArg.typed [] (Pat.ident "x") (Ty.other 3)] rfl⟩

end Entrait
